import Mathlib

/-!
# Verification of the ui-ux-feedback-system pipeline contract

Shallow embedding of the response-handling glue code of the four pipeline
stages (`src/agents/vision_agent.py`, `src/agents/heuristic_agent.py`,
`src/agents/feedback_agent.py`, `src/agents/wireframe_agent.py`).

Modelling conventions:
- Python strings that the code manipulates character-by-character are
  `List Char`; report lines, which the claims treat as opaque, are `String`.
- JSON values returned by `json.loads` are `JVal`; Python dictionaries are
  association lists `List (String × JVal)` with unique keys (as in Python).
- `json.loads` itself is the Python standard library, external to this
  repository; it is modelled as an arbitrary decoder parameter
  `jsonLoads : List Char → Except (List Char) JVal` (`.error e` models a
  `json.JSONDecodeError` whose `str(e)` is `e`).  The theorems quantify
  over it.
- A Python exception escaping a routine is modelled by `Option`: `none`
  means the call raised.
- Machine floats are modelled by `ℚ`.  Python `round(x, 1)` rounds ties to
  even while `round1` below rounds ties up; the two agree everywhere except
  at exact ties (denominator-20 values), which the scoring pipeline never
  produces since every severity weight is a multiple of 1/10.
- `str.strip()` is modelled with `Char.isWhitespace` (ASCII whitespace);
  the Unicode extras that Python also strips never occur in the claims.
-/

set_option maxRecDepth 8192

/-- A JSON-like Python value (the possible results of `json.loads`). -/
inductive JVal : Type where
  | str : List Char → JVal
  | num : ℚ → JVal
  | bool : Bool → JVal
  | null : JVal
  | arr : List JVal → JVal
  | obj : List (String × JVal) → JVal

/-- A Python dictionary with string keys. -/
abbrev PyDict := List (String × JVal)

/-- Python `d.get(k)` / `d[k]` lookup (keys are unique in a Python dict). -/
def dictGet (d : PyDict) (k : String) : Option JVal :=
  (d.find? (fun p => p.1 == k)).map (fun p => p.2)

/-- Python `d.get(k, dflt)`. -/
def dictGetD (d : PyDict) (k : String) (dflt : JVal) : JVal :=
  (dictGet d k).getD dflt

/-- Python `d[k] = v`: replace the value in place if the key is present,
append the binding otherwise (Python dicts preserve insertion order). -/
def dictSet (d : PyDict) (k : String) (v : JVal) : PyDict :=
  match d with
  | [] => [(k, v)]
  | (k1, v1) :: rest =>
      if k1 == k then (k, v) :: rest else (k1, v1) :: dictSet rest k v

/-- Python truthiness of a value (`if x:`). -/
def pyTruthy : JVal → Bool
  | .str s => !s.isEmpty
  | .num q => !(decide (q = 0))
  | .bool b => b
  | .null => false
  | .arr l => !l.isEmpty
  | .obj d => !d.isEmpty

/-- Python iteration (`for x in v`): lists yield elements, strings yield
one-character strings, dicts yield their keys; other values raise
`TypeError` (`none`). -/
def pyIter : JVal → Option (List JVal)
  | .arr l => some l
  | .str s => some (s.map (fun c => JVal.str [c]))
  | .obj d => some (d.map (fun p => JVal.str p.1.toList))
  | _ => none

/-- Python `len(v)`; raises `TypeError` (`none`) on non-sized values. -/
def pyLen : JVal → Option ℕ
  | .arr l => some l.length
  | .str s => some s.length
  | .obj d => some d.length
  | _ => none

/-- Python `v.get(k, dflt)` on an arbitrary value: only dictionaries have
`.get`; any other receiver raises `AttributeError` (`none`). -/
def jvGet (v : JVal) (k : String) (dflt : JVal) : Option JVal :=
  match v with
  | .obj d => some (dictGetD d k dflt)
  | _ => none

/-- Left-to-right monadic map over `Option`, modelling a Python loop whose
body may raise: the first raising element aborts the whole loop. -/
def pyMapM {α β : Type} (g : α → Option β) : List α → Option (List β)
  | [] => some []
  | a :: as => do
      let b ← g a
      let bs ← pyMapM g as
      pure (b :: bs)

/-- A Python list comprehension `[a for a in l if p a]` whose filter
expression may raise. -/
def pyListComp {α : Type} (p : α → Option Bool) : List α → Option (List α)
  | [] => some []
  | a :: as => do
      let b ← p a
      let rest ← pyListComp p as
      pure (if b then a :: rest else rest)

/-! ## Shared response cleanup

The fence-stripping block is duplicated verbatim in
`VisionAgent._parse_response`, `HeuristicAgent._parse_evaluation_response`
and `FeedbackAgent._parse_feedback_response`; it is embedded once here. -/

/-- Python `s.strip()`. -/
def pyStrip (s : List Char) : List Char :=
  ((s.dropWhile Char.isWhitespace).reverse.dropWhile Char.isWhitespace).reverse

/-- The cleanup block shared by the three parse routines:
strip, drop a leading ```` ```json ```` or ```` ``` ```` fence, drop a
trailing ```` ``` ```` fence, strip again. -/
def cleanResponse (responseText : List Char) : List Char :=
  let c0 := pyStrip responseText
  let c1 :=
    if "```json".toList.isPrefixOf c0 then c0.drop 7
    else if "```".toList.isPrefixOf c0 then c0.drop 3
    else c0
  let c2 :=
    if "```".toList.isSuffixOf c1 then (c1.reverse.drop 3).reverse
    else c1
  pyStrip c2

/-! ## Evaluation stage: scoring (`HeuristicAgent._calculate_score`) -/

/-- Python `round(q, 1)` (see the header note about tie-breaking). -/
def round1 (q : ℚ) : ℚ := ((round (q * 10) : ℤ) : ℚ) / 10

/-- `severity_impact.get(severity, 0)`: the weight table lookup.  Hashable
non-matching keys give the default 0; unhashable keys (lists, dicts) raise
`TypeError`. -/
def severityImpactGet : JVal → Option ℚ
  | .str s =>
      some (if s = "critical".toList then 10
            else if s = "high".toList then 3
            else if s = "medium".toList then 1
            else if s = "low".toList then 3/10
            else 0)
  | .num _ => some 0
  | .bool _ => some 0
  | .null => some 0
  | .arr _ => none
  | .obj _ => none

/-- One loop iteration of `_calculate_score`:
`severity = violation.get('severity', 'low')` followed by the weight
lookup; a non-dict violation raises `AttributeError`. -/
def violationDeduction : JVal → Option ℚ
  | .obj d => severityImpactGet (dictGetD d "severity" (.str "low".toList))
  | _ => none

/-- `HeuristicAgent._calculate_score` applied to an arbitrary value (the
code passes it `result.get('violations', [])`, which need not be a list). -/
def _calculate_score (violations : JVal) : Option ℚ :=
  if !pyTruthy violations then some 10
  else do
    let items ← pyIter violations
    let ds ← pyMapM violationDeduction items
    pure (max 0 (round1 (10 - min ds.sum 10)))

/-! ## Parse routines -/

/-- `VisionAgent._parse_response`. -/
def _parse_response (jsonLoads : List Char → Except (List Char) JVal)
    (responseText : List Char) : JVal :=
  match jsonLoads (cleanResponse responseText) with
  | .ok v => v
  | .error e => .obj [("raw_response", .str responseText), ("parse_error", .str e)]

/-- `HeuristicAgent._parse_evaluation_response`. -/
def _parse_evaluation_response (jsonLoads : List Char → Except (List Char) JVal)
    (responseText : List Char) : JVal :=
  match jsonLoads (cleanResponse responseText) with
  | .ok v => v
  | .error e => .obj [("raw_response", .str responseText), ("parse_error", .str e),
                      ("violations", .arr [])]

/-- `FeedbackAgent._parse_feedback_response`. -/
def _parse_feedback_response (jsonLoads : List Char → Except (List Char) JVal)
    (responseText : List Char) : JVal :=
  match jsonLoads (cleanResponse responseText) with
  | .ok v => v
  | .error e => .obj [("raw_response", .str responseText), ("parse_error", .str e),
                      ("feedback_items", .arr [])]

/-- Placeholder for `str(e)` of an exception caught by the outer
`except Exception` of a stage (its text is irrelevant to the claims). -/
def exceptionText : List Char := "exception".toList

/-- The tail of `HeuristicAgent.evaluate` from the point where the external
call has produced `response.text`: parse, then
`result['overall_score'] = self._calculate_score(result.get('violations', []))`.
An exception anywhere in the `try` block is caught and turned into the
`{"error": str(e)}` shape. -/
def evaluate_from_response (jsonLoads : List Char → Except (List Char) JVal)
    (responseText : List Char) : PyDict :=
  match _parse_evaluation_response jsonLoads responseText with
  | .obj d =>
      match _calculate_score (dictGetD d "violations" (.arr [])) with
      | some q => dictSet d "overall_score" (.num q)
      | none => [("error", .str exceptionText)]
  | _ => [("error", .str exceptionText)]

/-- The tail of `FeedbackAgent.generate_feedback` from the point where the
external call has produced `response.text`: parse, then
`result['platform'] = platform` and
`result['total_feedback_items'] = len(result.get('feedback_items', []))`,
with the outer `except Exception` producing `{"error": str(e)}`. -/
def generate_feedback_from_response (jsonLoads : List Char → Except (List Char) JVal)
    (responseText platform : List Char) : PyDict :=
  match _parse_feedback_response jsonLoads responseText with
  | .obj d =>
      let d1 := dictSet d "platform" (.str platform)
      match pyLen (dictGetD d1 "feedback_items" (.arr [])) with
      | some n => dictSet d1 "total_feedback_items" (.num (n : ℚ))
      | none => [("error", .str exceptionText)]
  | _ => [("error", .str exceptionText)]

/-! ## Claim C1 -/

/-- The per-violation deduction exactly as claim C1 words it, read off a
violation record's severity field (critical = 10, high = 3, medium = 1,
low = 0.3). -/
def claimSeverityWeight (d : PyDict) : ℚ :=
  match dictGet d "severity" with
  | some (.str s) =>
      if s = "critical".toList then 10
      else if s = "high".toList then 3
      else if s = "medium".toList then 1
      else if s = "low".toList then 3/10
      else 0
  | _ => 0

lemma violationDeduction_of_str {d : PyDict} {s : List Char}
    (h : dictGet d "severity" = some (JVal.str s)) :
    violationDeduction (.obj d) = some (claimSeverityWeight d) := by
  simp [violationDeduction, dictGetD, severityImpactGet, claimSeverityWeight, h]

lemma pyMapM_violationDeduction (items : List PyDict)
    (h : ∀ d ∈ items, ∃ s, dictGet d "severity" = some (JVal.str s)) :
    pyMapM violationDeduction (items.map JVal.obj)
      = some (items.map claimSeverityWeight) := by
  induction items with
  | nil => rfl
  | cons d rest ih =>
      obtain ⟨s, hs⟩ := h d (by simp)
      have hd := violationDeduction_of_str hs
      have hr := ih (fun x hx => h x (by simp [hx]))
      simp [pyMapM, hd, hr]

/-- C1: for every list of violation records, `_calculate_score` returns 10.0
on the empty list, and otherwise 10.0 minus the severity-weighted deduction
sum (critical = 10, high = 3, medium = 1, low = 0.3), the sum clamped to 10
before subtraction, the result clamped below at 0 and rounded to one
decimal; in particular one critical violation scores 0.0, three high
violations score 1.0, and four high violations score 0.0. -/
theorem score_formula_c1 (items : List PyDict)
    (h : ∀ d ∈ items, ∃ s, dictGet d "severity" = some (JVal.str s) ∧
          (s = "critical".toList ∨ s = "high".toList ∨
           s = "medium".toList ∨ s = "low".toList)) :
    _calculate_score (.arr (items.map JVal.obj))
      = some (if items.isEmpty then 10
              else max 0 (round1 (10 - min ((items.map claimSeverityWeight).sum) 10)))
    ∧ _calculate_score (.arr [.obj [("severity", .str "critical".toList)]]) = some 0
    ∧ _calculate_score (.arr [.obj [("severity", .str "high".toList)],
        .obj [("severity", .str "high".toList)],
        .obj [("severity", .str "high".toList)]]) = some 1
    ∧ _calculate_score (.arr [.obj [("severity", .str "high".toList)],
        .obj [("severity", .str "high".toList)],
        .obj [("severity", .str "high".toList)],
        .obj [("severity", .str "high".toList)]]) = some 0 := by
  refine ⟨?_, ?_, ?_, ?_⟩
  · cases items with
    | nil => rfl
    | cons d rest =>
        have hmap := pyMapM_violationDeduction (d :: rest)
          (fun x hx => (h x hx).imp (fun s hs => hs.1))
        simp only [List.map_cons] at hmap
        simp [_calculate_score, pyTruthy, pyIter, hmap, List.sum_cons]
  · simp [_calculate_score, pyTruthy, pyIter, pyMapM, violationDeduction,
      severityImpactGet, dictGetD, dictGet]
    norm_num [round1]
  · simp [_calculate_score, pyTruthy, pyIter, pyMapM, violationDeduction,
      severityImpactGet, dictGetD, dictGet]
    norm_num [round1]
  · simp [_calculate_score, pyTruthy, pyIter, pyMapM, violationDeduction,
      severityImpactGet, dictGetD, dictGet]
    norm_num [round1]

theorem score_formula_c1_witness :
    (∀ d ∈ ([[("severity", JVal.str "high".toList)]] : List PyDict),
        ∃ s, dictGet d "severity" = some (JVal.str s) ∧
          (s = "critical".toList ∨ s = "high".toList ∨
           s = "medium".toList ∨ s = "low".toList))
    ∧ (_calculate_score (.arr (([[("severity", JVal.str "high".toList)]] :
          List PyDict).map JVal.obj))
        = some (if ([[("severity", JVal.str "high".toList)]] : List PyDict).isEmpty then 10
                else max 0 (round1 (10 -
                  min ((([[("severity", JVal.str "high".toList)]] :
                    List PyDict).map claimSeverityWeight).sum) 10)))
       ∧ _calculate_score (.arr [.obj [("severity", .str "critical".toList)]]) = some 0
       ∧ _calculate_score (.arr [.obj [("severity", .str "high".toList)],
           .obj [("severity", .str "high".toList)],
           .obj [("severity", .str "high".toList)]]) = some 1
       ∧ _calculate_score (.arr [.obj [("severity", .str "high".toList)],
           .obj [("severity", .str "high".toList)],
           .obj [("severity", .str "high".toList)],
           .obj [("severity", .str "high".toList)]]) = some 0) := by
  have h : ∀ d ∈ ([[("severity", JVal.str "high".toList)]] : List PyDict),
      ∃ s, dictGet d "severity" = some (JVal.str s) ∧
        (s = "critical".toList ∨ s = "high".toList ∨
         s = "medium".toList ∨ s = "low".toList) := by
    intro d hd
    rw [List.mem_singleton] at hd
    subst hd
    exact ⟨"high".toList, rfl, Or.inr (Or.inl rfl)⟩
  exact ⟨h, score_formula_c1 _ h⟩

/-! ## Claim C2 -/

/-- C2 counterexample: a violation record with no severity key does not
score 10.0 (it scores 9.7, because the code defaults a missing severity to
the string low, weight 0.3). -/
theorem missing_severity_c2_counterexample :
    _calculate_score (.arr [.obj []]) ≠ some 10 := by
  have hv : _calculate_score (.arr [.obj []]) = some (97/10) := by
    simp [_calculate_score, pyTruthy, pyIter, pyMapM, violationDeduction,
      severityImpactGet, dictGetD, dictGet]
    norm_num [round1]
  rw [hv]
  simp only [ne_eq, Option.some.injEq]
  norm_num

/-- C2 (amended): a violation whose severity string is not one of
critical/high/medium/low contributes 0, so a single such violation scores
10.0; but a violation lacking the severity key defaults to low and
contributes 0.3, so a single such violation scores 9.7, not 10.0. -/
theorem unknown_severity_score_c2 (s : List Char)
    (h : ¬ (s = "critical".toList ∨ s = "high".toList ∨
            s = "medium".toList ∨ s = "low".toList)) :
    _calculate_score (.arr [.obj [("severity", .str s)]]) = some 10
    ∧ _calculate_score (.arr [.obj []]) = some (97/10) := by
  push_neg at h
  obtain ⟨h1, h2, h3, h4⟩ := h
  have hw : severityImpactGet (.str s) = some 0 := by
    simp only [severityImpactGet]
    rw [if_neg h1, if_neg h2, if_neg h3, if_neg h4]
  constructor
  · simp [_calculate_score, pyTruthy, pyIter, pyMapM, violationDeduction,
      dictGetD, dictGet, hw]
    norm_num [round1]
  · simp [_calculate_score, pyTruthy, pyIter, pyMapM, violationDeduction,
      severityImpactGet, dictGetD, dictGet]
    norm_num [round1]

theorem unknown_severity_score_c2_witness :
    (¬ ("unknown".toList = "critical".toList ∨ "unknown".toList = "high".toList ∨
        "unknown".toList = "medium".toList ∨ "unknown".toList = "low".toList))
    ∧ (_calculate_score (.arr [.obj [("severity", .str "unknown".toList)]]) = some 10
       ∧ _calculate_score (.arr [.obj []]) = some (97/10)) :=
  ⟨by decide, unknown_severity_score_c2 "unknown".toList (by decide)⟩

/-! ## Dictionary update lemmas -/

lemma dictGet_dictSet_self (d : PyDict) (k : String) (v : JVal) :
    dictGet (dictSet d k v) k = some v := by
  induction d with
  | nil => simp [dictSet, dictGet]
  | cons p rest ih =>
      obtain ⟨k1, v1⟩ := p
      by_cases hk : k1 == k
      · simp [dictSet, hk, dictGet]
      · simp only [dictSet, hk, Bool.false_eq_true, if_false]
        simpa [dictGet, hk] using ih

lemma dictGet_dictSet_ne (d : PyDict) {k k' : String} (v : JVal) (hne : k' ≠ k) :
    dictGet (dictSet d k v) k' = dictGet d k' := by
  induction d with
  | nil => simp [dictSet, dictGet, hne, Ne.symm hne]
  | cons p rest ih =>
      obtain ⟨k1, v1⟩ := p
      by_cases hk : k1 == k
      · have hkk : k1 = k := by simpa using hk
        subst hkk
        simp [dictSet, dictGet, Ne.symm hne]
      · by_cases hk' : k1 == k'
        · simp [dictSet, hk, dictGet, hk']
        · simp only [dictSet, hk, Bool.false_eq_true, if_false]
          simpa [dictGet, hk'] using ih

/-! ## Claim C4 -/

/-- C4: whenever the cleaned response text fails to decode, every parse
routine returns the raw_response/parse_error mapping instead of raising,
the evaluation parse routine additionally substitutes violations = [], and
the evaluation stage still scores it, yielding overall_score = 10.0. -/
theorem parse_error_fallback_c4 (jsonLoads : List Char → Except (List Char) JVal)
    (t e : List Char) (h : jsonLoads (cleanResponse t) = .error e) :
    _parse_response jsonLoads t
      = .obj [("raw_response", .str t), ("parse_error", .str e)]
    ∧ _parse_evaluation_response jsonLoads t
      = .obj [("raw_response", .str t), ("parse_error", .str e), ("violations", .arr [])]
    ∧ evaluate_from_response jsonLoads t
      = [("raw_response", .str t), ("parse_error", .str e), ("violations", .arr []),
         ("overall_score", .num 10)] := by
  refine ⟨?_, ?_, ?_⟩
  · simp [_parse_response, h]
  · simp [_parse_evaluation_response, h]
  · simp [evaluate_from_response, _parse_evaluation_response, h, dictGetD, dictGet,
      _calculate_score, pyTruthy, dictSet]

theorem parse_error_fallback_c4_witness :
    ((fun _ => Except.error "Expecting value".toList :
        List Char → Except (List Char) JVal) (cleanResponse "not json".toList)
      = Except.error "Expecting value".toList)
    ∧ (_parse_response (fun _ => Except.error "Expecting value".toList) "not json".toList
        = .obj [("raw_response", .str "not json".toList),
                ("parse_error", .str "Expecting value".toList)]
      ∧ _parse_evaluation_response (fun _ => Except.error "Expecting value".toList)
          "not json".toList
        = .obj [("raw_response", .str "not json".toList),
                ("parse_error", .str "Expecting value".toList), ("violations", .arr [])]
      ∧ evaluate_from_response (fun _ => Except.error "Expecting value".toList)
          "not json".toList
        = [("raw_response", .str "not json".toList),
           ("parse_error", .str "Expecting value".toList), ("violations", .arr []),
           ("overall_score", .num 10)]) :=
  ⟨rfl, parse_error_fallback_c4 _ _ _ rfl⟩

/-! ## Claim C10 -/

/-- C10: when the feedback response text fails to parse, the stage still
returns feedback_items = [], total_feedback_items = 0 and the caller's
platform alongside raw_response and parse_error, without raising. -/
theorem feedback_parse_error_c10 (jsonLoads : List Char → Except (List Char) JVal)
    (t p e : List Char) (h : jsonLoads (cleanResponse t) = .error e) :
    generate_feedback_from_response jsonLoads t p
      = [("raw_response", .str t), ("parse_error", .str e), ("feedback_items", .arr []),
         ("platform", .str p), ("total_feedback_items", .num 0)] := by
  simp [generate_feedback_from_response, _parse_feedback_response, h, dictSet,
    dictGetD, dictGet, pyLen]

theorem feedback_parse_error_c10_witness :
    ((fun _ => Except.error "bad json".toList :
        List Char → Except (List Char) JVal) (cleanResponse "oops".toList)
      = Except.error "bad json".toList)
    ∧ generate_feedback_from_response (fun _ => Except.error "bad json".toList)
        "oops".toList "android".toList
      = [("raw_response", .str "oops".toList), ("parse_error", .str "bad json".toList),
         ("feedback_items", .arr []), ("platform", .str "android".toList),
         ("total_feedback_items", .num 0)] :=
  ⟨rfl, feedback_parse_error_c10 _ _ _ _ rfl⟩

/-! ## Claim C5 -/

/-- C5: on every successfully returned feedback result the stored
total_feedback_items equals the length of the feedback_items sequence (0
when absent), recomputed by the stage rather than taken from the response;
and the caller's platform is stamped in. -/
theorem total_feedback_items_recomputed_c5 (jsonLoads : List Char → Except (List Char) JVal)
    (t p : List Char) (d : PyDict) (l : List JVal)
    (hparse : _parse_feedback_response jsonLoads t = .obj d)
    (hfi : dictGetD d "feedback_items" (.arr []) = .arr l) :
    dictGet (generate_feedback_from_response jsonLoads t p) "total_feedback_items"
      = some (.num (l.length : ℚ))
    ∧ dictGet (generate_feedback_from_response jsonLoads t p) "platform"
      = some (.str p) := by
  have hne1 : "feedback_items" ≠ "platform" := by decide
  have hne2 : "platform" ≠ "total_feedback_items" := by decide
  have hfi1 : dictGetD (dictSet d "platform" (.str p)) "feedback_items" (.arr [])
      = .arr l := by
    simpa [dictGetD, dictGet_dictSet_ne d (.str p) hne1] using hfi
  constructor
  · simp only [generate_feedback_from_response, hparse, hfi1, pyLen]
    exact dictGet_dictSet_self _ _ _
  · simp only [generate_feedback_from_response, hparse, hfi1, pyLen]
    rw [dictGet_dictSet_ne _ _ hne2, dictGet_dictSet_self]

theorem total_feedback_items_recomputed_c5_witness :
    (_parse_feedback_response
        (fun _ => Except.ok (.obj [("feedback_items", .arr [.obj []]),
                                   ("total_feedback_items", .num 99)])) "t".toList
      = .obj [("feedback_items", .arr [.obj []]), ("total_feedback_items", .num 99)])
    ∧ (dictGetD [("feedback_items", JVal.arr [.obj []]),
                 ("total_feedback_items", JVal.num 99)] "feedback_items" (.arr [])
        = .arr [.obj []])
    ∧ (dictGet (generate_feedback_from_response
          (fun _ => Except.ok (.obj [("feedback_items", .arr [.obj []]),
                                     ("total_feedback_items", .num 99)]))
          "t".toList "ios".toList) "total_feedback_items"
        = some (.num ((1 : ℕ) : ℚ))
      ∧ dictGet (generate_feedback_from_response
          (fun _ => Except.ok (.obj [("feedback_items", .arr [.obj []]),
                                     ("total_feedback_items", .num 99)]))
          "t".toList "ios".toList) "platform"
        = some (.str "ios".toList)) :=
  ⟨rfl, rfl,
    total_feedback_items_recomputed_c5
      (fun _ => Except.ok (.obj [("feedback_items", .arr [.obj []]),
                                 ("total_feedback_items", .num 99)]))
      "t".toList "ios".toList
      [("feedback_items", .arr [.obj []]), ("total_feedback_items", .num 99)]
      [.obj []] rfl rfl⟩

/-! ## Claim C9 -/

/-- C9 counterexample: a returned evaluation mapping can simultaneously
contain a parse_error key and the stage-computed overall_score field. -/
theorem parse_error_mix_c9_counterexample :
    (dictGet (evaluate_from_response (fun _ => .error "bad".toList) "x".toList)
        "parse_error").isSome = true
    ∧ dictGet (evaluate_from_response (fun _ => .error "bad".toList) "x".toList)
        "overall_score" = some (.num 10) := by
  constructor
  · simp [evaluate_from_response, _parse_evaluation_response, dictGetD, dictGet,
      _calculate_score, pyTruthy, dictSet]
  · simp [evaluate_from_response, _parse_evaluation_response, dictGetD, dictGet,
      _calculate_score, pyTruthy, dictSet]

/-- C9 (amended): the error fallback and the substantive fields are not
mutually exclusive for parse failures: the evaluation stage stamps
overall_score = 10.0 onto the parse-error shape, and the feedback stage
stamps platform and total_feedback_items = 0 onto it. -/
theorem parse_error_keeps_fields_c9 (jsonLoads : List Char → Except (List Char) JVal)
    (t p e : List Char) (h : jsonLoads (cleanResponse t) = .error e) :
    (dictGet (evaluate_from_response jsonLoads t) "parse_error" = some (.str e)
     ∧ dictGet (evaluate_from_response jsonLoads t) "overall_score" = some (.num 10))
    ∧ (dictGet (generate_feedback_from_response jsonLoads t p) "parse_error"
        = some (.str e)
       ∧ dictGet (generate_feedback_from_response jsonLoads t p) "platform"
        = some (.str p)
       ∧ dictGet (generate_feedback_from_response jsonLoads t p) "total_feedback_items"
        = some (.num 0)) := by
  refine ⟨⟨?_, ?_⟩, ?_, ?_, ?_⟩ <;>
    simp [evaluate_from_response, _parse_evaluation_response,
      generate_feedback_from_response, _parse_feedback_response, h, dictGetD, dictGet,
      _calculate_score, pyTruthy, pyLen, dictSet]

theorem parse_error_keeps_fields_c9_witness :
    ((fun _ => Except.error "e1".toList :
        List Char → Except (List Char) JVal) (cleanResponse "zzz".toList)
      = Except.error "e1".toList)
    ∧ ((dictGet (evaluate_from_response (fun _ => Except.error "e1".toList) "zzz".toList)
          "parse_error" = some (.str "e1".toList)
        ∧ dictGet (evaluate_from_response (fun _ => Except.error "e1".toList) "zzz".toList)
          "overall_score" = some (.num 10))
      ∧ (dictGet (generate_feedback_from_response (fun _ => Except.error "e1".toList)
            "zzz".toList "web".toList) "parse_error" = some (.str "e1".toList)
         ∧ dictGet (generate_feedback_from_response (fun _ => Except.error "e1".toList)
            "zzz".toList "web".toList) "platform" = some (.str "web".toList)
         ∧ dictGet (generate_feedback_from_response (fun _ => Except.error "e1".toList)
            "zzz".toList "web".toList) "total_feedback_items" = some (.num 0))) :=
  ⟨rfl, parse_error_keeps_fields_c9 _ _ _ _ rfl⟩

/-! ## Claim C3: fence stripping -/

lemma length_dropWhile_le_own (p : Char → Bool) (l : List Char) :
    (l.dropWhile p).length ≤ l.length := by
  induction l with
  | nil => simp
  | cons a t ih =>
      rw [List.dropWhile_cons]
      split
      · exact le_trans ih (by simp)
      · simp

lemma dropWhile_cons_false {p : Char → Bool} {a : Char} {l : List Char} (h : p a = false) :
    (a :: l).dropWhile p = a :: l := by
  simp [List.dropWhile_cons, h]

lemma head_false_of_dropWhile_self {p : Char → Bool} {a : Char} {l : List Char}
    (h : (a :: l).dropWhile p = a :: l) : p a = false := by
  by_contra hb
  have hpa : p a = true := by simpa using hb
  rw [List.dropWhile_cons_of_pos hpa] at h
  have hlen := congrArg List.length h
  have hle := length_dropWhile_le_own p l
  simp at hlen
  omega

lemma bool_ne_true {b : Bool} (h : b = false) : ¬ (b = true) := by
  simp [h]

lemma isPrefixOf_append_self (l r : List Char) : l.isPrefixOf (l ++ r) = true := by
  induction l with
  | nil => simp [List.isPrefixOf]
  | cons a t ih => simp [List.isPrefixOf, ih]

lemma isPrefixOf_of_append {x y s : List Char} (h : (x ++ y).isPrefixOf s = true) :
    x.isPrefixOf s = true := by
  induction x generalizing s with
  | nil => simp [List.isPrefixOf]
  | cons a t ih =>
      cases s with
      | nil => simp [List.isPrefixOf] at h
      | cons b bs =>
          simp only [List.cons_append, List.isPrefixOf, Bool.and_eq_true] at h ⊢
          exact ⟨h.1, ih h.2⟩

lemma isSuffixOf_append_self (l r : List Char) : r.isSuffixOf (l ++ r) = true := by
  simp [List.isSuffixOf]

/-- C3: the response cleanup strips exactly one leading ```` ```json ````
fence and one trailing ```` ``` ```` fence as a pure prefix/suffix trim:
a bare, fence-free, whitespace-trimmed text is returned unchanged
(idempotence), and the same text wrapped as ```` ```json\n…\n``` ````
cleans to exactly the bare text, so both parse to the same value. -/
theorem fence_stripping_c3 (s : List Char)
    (hpre : "```".toList.isPrefixOf s = false)
    (hsuf : "```".toList.isSuffixOf s = false)
    (hlead : s.dropWhile Char.isWhitespace = s)
    (htrail : s.reverse.dropWhile Char.isWhitespace = s.reverse) :
    cleanResponse ("```json\n".toList ++ s ++ "\n```".toList) = s
    ∧ cleanResponse s = s := by
  have hstrip : pyStrip s = s := by
    unfold pyStrip
    rw [hlead, htrail, List.reverse_reverse]
  have hpre7 : "```json".toList.isPrefixOf s = false := by
    by_contra hb
    have hb' : "```json".toList.isPrefixOf s = true := by simpa using hb
    have hsplit : "```json".toList = "```".toList ++ "json".toList := by decide
    rw [hsplit] at hb'
    have hx := isPrefixOf_of_append hb'
    rw [hx] at hpre
    exact Bool.noConfusion hpre
  have hbare : cleanResponse s = s := by
    have h1 : ¬ ("```json".toList.isPrefixOf s = true) := bool_ne_true hpre7
    have h2 : ¬ ("```".toList.isPrefixOf s = true) := bool_ne_true hpre
    have h3 : ¬ ("```".toList.isSuffixOf s = true) := bool_ne_true hsuf
    simp only [cleanResponse]
    rw [hstrip, if_neg h1, if_neg h2, if_neg h3]
    exact hstrip
  refine ⟨?_, hbare⟩
  cases s with
  | nil => decide
  | cons a0 t0 =>
      set s := a0 :: t0 with hs
      -- the wrapped text
      obtain ⟨a1, t1, he1, hw1⟩ :
          ∃ a t, "```json\n".toList = a :: t ∧ Char.isWhitespace a = false :=
        ⟨_, _, rfl, by decide⟩
      obtain ⟨a2, t2, he2, hw2⟩ :
          ∃ a t, ("\n```".toList).reverse = a :: t ∧ Char.isWhitespace a = false :=
        ⟨_, _, rfl, by decide⟩
      have hwlead : (("```json\n".toList ++ (s ++ "\n```".toList))).dropWhile
          Char.isWhitespace = "```json\n".toList ++ (s ++ "\n```".toList) := by
        rw [he1, List.cons_append]
        exact dropWhile_cons_false hw1
      have hwrev : (("```json\n".toList ++ (s ++ "\n```".toList))).reverse
          = a2 :: (t2 ++ (s.reverse ++ ("```json\n".toList).reverse)) := by
        rw [List.reverse_append, List.reverse_append, he2, List.cons_append,
          List.cons_append, List.append_assoc]
      have hwtrail : ((("```json\n".toList ++ (s ++ "\n```".toList))).reverse).dropWhile
          Char.isWhitespace = (("```json\n".toList ++ (s ++ "\n```".toList))).reverse := by
        rw [hwrev]
        exact dropWhile_cons_false hw2
      have hwstrip : pyStrip ("```json\n".toList ++ (s ++ "\n```".toList))
          = "```json\n".toList ++ (s ++ "\n```".toList) := by
        unfold pyStrip
        rw [hwlead, hwtrail, List.reverse_reverse]
      -- prefix fence recognised and dropped
      have hsplit : "```json\n".toList = "```json".toList ++ "\n".toList := by decide
      have hpfx : "```json".toList.isPrefixOf
          ("```json\n".toList ++ (s ++ "\n```".toList)) = true := by
        rw [hsplit, List.append_assoc]
        exact isPrefixOf_append_self _ _
      have hdrop7 : ("```json\n".toList ++ (s ++ "\n```".toList)).drop 7
          = "\n".toList ++ (s ++ "\n```".toList) := by
        rw [hsplit, List.append_assoc]
        have h7 : (7 : ℕ) = ("```json".toList).length := by decide
        rw [h7, List.drop_left]
      -- suffix fence recognised and dropped
      have hesplit : "\n```".toList = "\n".toList ++ "```".toList := by decide
      have hregroup : "\n".toList ++ (s ++ "\n```".toList)
          = ("\n".toList ++ (s ++ "\n".toList)) ++ "```".toList := by
        rw [hesplit]
        simp [List.append_assoc]
      have hsfx : "```".toList.isSuffixOf ("\n".toList ++ (s ++ "\n```".toList)) = true := by
        rw [hregroup]
        exact isSuffixOf_append_self _ _
      have hdropsfx : ((("\n".toList ++ (s ++ "\n```".toList)).reverse).drop 3).reverse
          = "\n".toList ++ (s ++ "\n".toList) := by
        rw [hregroup, List.reverse_append]
        have h3 : (3 : ℕ) = (("```".toList).reverse).length := by decide
        rw [h3, List.drop_left, List.reverse_reverse]
      -- final strip of "\n" ++ s ++ "\n"
      obtain ⟨a3, he3, hw3⟩ :
          ∃ a, "\n".toList = [a] ∧ Char.isWhitespace a = true :=
        ⟨_, rfl, by decide⟩
      have hwa0 : Char.isWhitespace a0 = false := head_false_of_dropWhile_self hlead
      have hfin1 : ("\n".toList ++ (s ++ "\n".toList)).dropWhile Char.isWhitespace
          = s ++ "\n".toList := by
        rw [he3, List.singleton_append, List.dropWhile_cons_of_pos hw3, hs,
          List.cons_append]
        exact dropWhile_cons_false hwa0
      have hfin2 : ((s ++ "\n".toList).reverse).dropWhile Char.isWhitespace
          = s.reverse := by
        rw [List.reverse_append, he3, List.reverse_singleton, List.singleton_append,
          List.dropWhile_cons_of_pos hw3]
        exact htrail
      have hfinstrip : pyStrip ("\n".toList ++ (s ++ "\n".toList)) = s := by
        unfold pyStrip
        rw [hfin1, hfin2, List.reverse_reverse]
      -- assemble
      show cleanResponse ("```json\n".toList ++ s ++ "\n```".toList) = s
      simp only [cleanResponse, List.append_assoc]
      rw [hwstrip, if_pos hpfx, hdrop7, if_pos hsfx, hdropsfx]
      exact hfinstrip

theorem fence_stripping_c3_witness :
    ("```".toList.isPrefixOf ("[1, 2, 3]".toList) = false
     ∧ "```".toList.isSuffixOf ("[1, 2, 3]".toList) = false
     ∧ ("[1, 2, 3]".toList).dropWhile Char.isWhitespace = "[1, 2, 3]".toList
     ∧ (("[1, 2, 3]".toList).reverse).dropWhile Char.isWhitespace
        = ("[1, 2, 3]".toList).reverse)
    ∧ (cleanResponse ("```json\n".toList ++ "[1, 2, 3]".toList ++ "\n```".toList)
        = "[1, 2, 3]".toList
       ∧ cleanResponse ("[1, 2, 3]".toList) = "[1, 2, 3]".toList) :=
  ⟨⟨by decide, by decide, by decide, by decide⟩,
    fence_stripping_c3 _ (by decide) (by decide) (by decide) (by decide)⟩

/-! ## Claim C8: regeneration-stage markup extraction -/

/-- Python `s.find(pat, start)`: index of the first occurrence of `pat` at
or after `start` (`none` models the -1 not-found result). -/
def strFind (s pat : List Char) (start : ℕ) : Option ℕ :=
  (List.range (s.length + 1)).find? (fun i => decide (start ≤ i) && pat.isPrefixOf (s.drop i))

/-- The minimal document shell `WireframeAgent._extract_html` wraps bare
markup in. -/
def htmlShellWrap (cleaned : List Char) : List Char :=
  "<!DOCTYPE html>\n<html>\n<head>\n    <meta charset=\"UTF-8\">\n    <meta name=\"viewport\" content=\"width=device-width, initial-scale=1.0\">\n    <title>Wireframe</title>\n</head>\n<body>\n".toList
  ++ cleaned ++ "\n</body>\n</html>".toList

/-- The fence-location part of `WireframeAgent._extract_html`: strip, then
if ```` ```html ```` occurs anywhere take the text between it and the next
```` ``` ```` (up to the second-to-last character when unclosed, Python
`cleaned[start:-1]`), else the same with a bare ```` ``` ```` fence, else
the stripped text unchanged. -/
def _extract_html_core (responseText : List Char) : List Char :=
  let cleaned := pyStrip responseText
  match strFind cleaned "```html".toList 0 with
  | some i =>
      pyStrip (match strFind cleaned "```".toList (i + 7) with
               | some e => (cleaned.take e).drop (i + 7)
               | none => (cleaned.take (cleaned.length - 1)).drop (i + 7))
  | none =>
      match strFind cleaned "```".toList 0 with
      | some i =>
          pyStrip (match strFind cleaned "```".toList (i + 3) with
                   | some e => (cleaned.take e).drop (i + 3)
                   | none => (cleaned.take (cleaned.length - 1)).drop (i + 3))
      | none => cleaned

/-- `WireframeAgent._extract_html`: locate and extract the fenced block,
then wrap the result in the document shell unless it already starts with a
recognized document root. -/
def _extract_html (responseText : List Char) : List Char :=
  let cleaned := _extract_html_core responseText
  if "<!DOCTYPE".toList.isPrefixOf cleaned || "<html".toList.isPrefixOf cleaned then cleaned
  else htmlShellWrap cleaned

/-- Follows the words of the spec for claim C8: extract the markup with the
same prefix/suffix fence-stripping rule as the other stages
(`cleanResponse`), then wrap when no recognized document root. -/
def specExtractHtml (responseText : List Char) : List Char :=
  let cleaned := cleanResponse responseText
  if "<!DOCTYPE".toList.isPrefixOf cleaned || "<html".toList.isPrefixOf cleaned then cleaned
  else htmlShellWrap cleaned

lemma isPrefixOf_append_right {x y : List Char} (z : List Char)
    (h : x.isPrefixOf y = true) : x.isPrefixOf (y ++ z) = true := by
  induction x generalizing y with
  | nil => simp [List.isPrefixOf]
  | cons a t ih =>
      cases y with
      | nil => simp [List.isPrefixOf] at h
      | cons b bs =>
          simp only [List.isPrefixOf, Bool.and_eq_true, List.cons_append] at h ⊢
          exact ⟨h.1, ih h.2⟩

/-- C8 counterexample: the regeneration stage does not apply the same
prefix/suffix fence-stripping rule as the other stages; already on a plain
```` ```html ````-fenced response the two rules disagree (the shared rule
only recognises ```` ``` ```` and ```` ```json ```` prefixes, leaving the
`html` tag in the text). -/
theorem extract_rule_c8_counterexample :
    _extract_html ("```html\n<div>hi</div>\n```".toList)
      ≠ specExtractHtml ("```html\n<div>hi</div>\n```".toList) := by
  decide

/-- C8 (amended): the markup extraction locates the first ```` ```html ````
fence (else the first ```` ``` ```` fence) anywhere in the stripped
response and takes the stripped text up to the next fence, rather than
trimming a prefix/suffix; unfenced text passes through stripped.  The
repair step is as claimed: for every response the extraction result begins
with <!DOCTYPE or <html (bare markup is wrapped in the minimal document
shell), as the prose-surrounded fenced example shows concretely. -/
theorem extract_html_document_root_c8 :
    (∀ s : List Char,
        ("<!DOCTYPE".toList.isPrefixOf (_extract_html s)
         || "<html".toList.isPrefixOf (_extract_html s)) = true)
    ∧ _extract_html ("Here is the page:\n```html\n<div>hi</div>\n```".toList)
      = htmlShellWrap ("<div>hi</div>".toList) := by
  constructor
  · intro s
    unfold _extract_html
    by_cases h : ("<!DOCTYPE".toList.isPrefixOf (_extract_html_core s)
        || "<html".toList.isPrefixOf (_extract_html_core s)) = true
    · rw [if_pos h]
      exact h
    · rw [if_neg h]
      have hp : "<!DOCTYPE".toList.isPrefixOf
          ("<!DOCTYPE html>\n<html>\n<head>\n    <meta charset=\"UTF-8\">\n    <meta name=\"viewport\" content=\"width=device-width, initial-scale=1.0\">\n    <title>Wireframe</title>\n</head>\n<body>\n".toList)
          = true := by decide
      have h1 : "<!DOCTYPE".toList.isPrefixOf (htmlShellWrap (_extract_html_core s))
          = true := by
        unfold htmlShellWrap
        exact isPrefixOf_append_right _ hp
      exact (Bool.or_eq_true _ _).mpr (Or.inl h1)
  · decide

/-! ## Feedback stage: developer report (`FeedbackAgent.generate_developer_report`)

The Python function builds a list of lines and joins it with newlines; each
loop body below becomes one definition producing the lines that iteration
appends, and the function is their concatenation.  Report lines are opaque
`String`s. -/

/-- Text of a rational in an interpolated report line (Python prints the
default ints of the summary as plain digits; the exact float formatting of
other numbers is irrelevant to every claim). -/
def renderedNum (q : ℚ) : String :=
  if q.den = 1 then toString q.num else toString q.num ++ "/" ++ toString q.den

/-- Text of a value interpolated into an f-string, following Python `str()`
on scalars; composite values are abbreviated, as no claim inspects a line
containing one. -/
def pyStr : JVal → String
  | .str s => s.asString
  | .num q => renderedNum q
  | .bool b => if b then "True" else "False"
  | .null => "None"
  | .arr _ => "<list>"
  | .obj _ => "<dict>"

/-- `report.append(code_example.get('code', ''))` appends the raw value; a
non-string there makes the final newline-join raise `TypeError`, which the
function does not catch, so it is surfaced at this point (`none`). -/
def strOnly : JVal → Option String
  | .str s => some s.asString
  | _ => none

/-- The summary block (title line excluded): six lines read from
`summary = feedback_result.get('summary', {})` with placeholder defaults;
a non-dict summary raises on the first `.get`. -/
def summaryLines (sm_v : JVal) : Option (List String) := do
  let ti ← jvGet sm_v "total_issues" (.num 0)
  let cr ← jvGet sm_v "critical" (.num 0)
  let hi ← jvGet sm_v "high" (.num 0)
  let me ← jvGet sm_v "medium" (.num 0)
  let lo ← jvGet sm_v "low" (.num 0)
  let et ← jvGet sm_v "estimated_total_time" (.str "Unknown".toList)
  pure ["## 📊 Summary\n",
        "- **Total Issues Found:** " ++ pyStr ti,
        "- **Critical:** " ++ pyStr cr,
        "- **High Priority:** " ++ pyStr hi,
        "- **Medium Priority:** " ++ pyStr me,
        "- **Low Priority:** " ++ pyStr lo,
        "- **Estimated Time to Fix:** " ++ pyStr et ++ "\n"]

/-- One iteration of the quick-wins loop (1-based `enumerate`). -/
def quickWinLines (iw : ℕ × JVal) : Option (List String) := do
  let ch ← jvGet iw.2 "change" (.str "N/A".toList)
  let im ← jvGet iw.2 "impact" (.str "N/A".toList)
  let ef ← jvGet iw.2 "effort" (.str "N/A".toList)
  pure [toString iw.1 ++ ". **" ++ pyStr ch ++ "**",
        "   - Impact: " ++ pyStr im,
        "   - Effort: " ++ pyStr ef ++ "\n"]

/-- The quick-wins section, rendered only when `quick_wins` is truthy. -/
def quickWinsLines (qw_v : JVal) : Option (List String) :=
  if pyTruthy qw_v then do
    let wins ← pyIter qw_v
    let chunks ← pyMapM quickWinLines (wins.enumFrom 1)
    pure (["## ⚡ Quick Wins (Do These First!)\n",
           "These changes take minimal time but provide maximum impact:\n"]
          ++ chunks.flatten)
  else pure []

/-- The `if code_example:` block of the item loop: four lines when the
code example is truthy (raising unless it is a dict whose code entry is a
string), nothing otherwise. -/
def codeExampleLines (ce : JVal) : Option (List String) :=
  if pyTruthy ce then do
    let lang1 ← jvGet ce "language" (.str "code".toList)
    let lang2 ← jvGet ce "language" (.str "kotlin".toList)
    let cv ← jvGet ce "code" (.str [])
    let codeLine ← strOnly cv
    pure ["**Code Example (" ++ pyStr lang1 ++ "):**",
          "```" ++ pyStr lang2,
          codeLine,
          "```\n"]
  else pure []

/-- The lines rendered for one feedback item inside a priority bucket. -/
def feedbackItemLines (item : JVal) : Option (List String) := do
  let idv ← jvGet item "id" (.str "?".toList)
  let title ← jvGet item "title" (.str "Unknown".toList)
  let cat ← jvGet item "category" (.str "N/A".toList)
  let eff ← jvGet item "estimated_effort" (.str "Unknown".toList)
  let why ← jvGet item "why_it_matters" (.str "N/A".toList)
  let wtd ← jvGet item "what_to_do" (.arr [])
  let stepVals ← pyIter wtd
  let ce ← jvGet item "code_example" (.obj [])
  let codeBlock ← codeExampleLines ce
  let wc ← jvGet item "wireframe_changes" (.str "N/A".toList)
  pure (["#### " ++ pyStr idv ++ ". " ++ pyStr title ++ "\n",
         "**Category:** " ++ pyStr cat ++ "  ",
         "**Estimated Effort:** " ++ pyStr eff ++ "\n",
         "**Why it matters:**  ",
         pyStr why ++ "\n",
         "**What to do:**"]
        ++ stepVals.map (fun st => "- " ++ pyStr st)
        ++ [""]
        ++ codeBlock
        ++ ["**Visual changes needed:**  ",
            pyStr wc ++ "\n",
            "---\n"])

/-- `item.get('priority') == priority` as a Boolean (no raise possible once
the receiver is a dict; `None` compares unequal to every string). -/
def hasPriority (it : JVal) (p : String) : Bool :=
  match it with
  | .obj d =>
      match dictGet d "priority" with
      | some (.str s) => s == p.toList
      | _ => false
  | _ => false

/-- The filter expression of the bucket comprehension; a non-dict element
raises `AttributeError` at its `.get`. -/
def priorityCheck (p : String) (it : JVal) : Option Bool :=
  match it with
  | .obj _ => some (hasPriority it p)
  | _ => none

/-- The fixed bucket order of the detailed-feedback section. -/
def priorities : List String := ["critical", "high", "medium", "low"]

/-- One iteration of the per-priority loop: filter the items, and when the
bucket is non-empty render its heading and every item in bucket order. -/
def bucketLines (items : List JVal) (p : String) : Option (List String) := do
  let pitems ← pyListComp (priorityCheck p) items
  if pitems.isEmpty then pure []
  else do
    let chunks ← pyMapM feedbackItemLines pitems
    pure (("### " ++ p.toUpper ++ " Priority (" ++ toString pitems.length ++ " items)\n")
          :: chunks.flatten)

/-- The detailed-feedback section: its heading, then the four priority
buckets in the fixed order. -/
def detailedFeedbackLines (fi_v : JVal) : Option (List String) := do
  let items ← pyIter fi_v
  let buckets ← pyMapM (bucketLines items) priorities
  pure ("## 🔧 Detailed Feedback\n" :: buckets.flatten)

/-- One `wireframe_instructions` sub-list block: header, one line per
element, and a blank line — rendered only when the sub-list is truthy. -/
def subListLines (header : String) (v : JVal) : Option (List String) :=
  if pyTruthy v then do
    let elems ← pyIter v
    pure (header :: (elems.map (fun x => "- " ++ pyStr x) ++ [""]))
  else pure []

/-- The visual-design-changes section, rendered only when
`wireframe_instructions` is truthy: overall_changes, priority_fixes,
color_adjustments and typography_changes (the code never reads
layout_modifications). -/
def wireframeSectionLines (wi_v : JVal) : Option (List String) :=
  if pyTruthy wi_v then do
    let overall ← jvGet wi_v "overall_changes" (.str [])
    let pf ← jvGet wi_v "priority_fixes" (.arr [])
    let pfL ← subListLines "**Priority Visual Fixes:**" pf
    let ca ← jvGet wi_v "color_adjustments" (.arr [])
    let caL ← subListLines "**Color Adjustments:**" ca
    let tc ← jvGet wi_v "typography_changes" (.arr [])
    let tcL ← subListLines "**Typography Changes:**" tc
    pure ("## 🎨 Visual Design Changes\n"
          :: ((if pyTruthy overall then ["**Overall:** " ++ pyStr overall ++ "\n"] else [])
              ++ pfL ++ caL ++ tcL))
  else pure []

/-- The full line list of `generate_developer_report` (before the final
newline-join): title, summary, quick wins, detailed feedback, visual
design changes. -/
def developer_report_lines (feedback_result : PyDict) : Option (List String) := do
  let sLines ← summaryLines (dictGetD feedback_result "summary" (.obj []))
  let qwLines ← quickWinsLines (dictGetD feedback_result "quick_wins" (.arr []))
  let dLines ← detailedFeedbackLines (dictGetD feedback_result "feedback_items" (.arr []))
  let wfLines ← wireframeSectionLines
      (dictGetD feedback_result "wireframe_instructions" (.obj []))
  pure (["# 🎯 UX Feedback Report for Developers\n"]
        ++ sLines ++ qwLines ++ dLines ++ wfLines)

/-- `FeedbackAgent.generate_developer_report`: the newline-join of the
report lines; `none` models an uncaught exception. -/
def generate_developer_report (feedback_result : PyDict) : Option String :=
  (developer_report_lines feedback_result).map (String.intercalate "\n")

/-! ## Option and loop helper lemmas -/

lemma opt_eq_some_getD {α : Type} (o : Option α) (d : α) (h : o.isSome = true) :
    o = some (o.getD d) := by
  cases o with
  | none => simp at h
  | some a => rfl

lemma pyMapM_eq_map {α β : Type} (g : α → Option β) (f : α → β) (l : List α)
    (h : ∀ a ∈ l, g a = some (f a)) : pyMapM g l = some (l.map f) := by
  induction l with
  | nil => rfl
  | cons a t ih =>
      have ha := h a (by simp)
      have ht := ih (fun x hx => h x (by simp [hx]))
      simp [pyMapM, ha, ht]

lemma pyMapM_isSome {α β : Type} (g : α → Option β) (l : List α)
    (h : ∀ a ∈ l, (g a).isSome = true) : (pyMapM g l).isSome = true := by
  induction l with
  | nil => simp [pyMapM]
  | cons a t ih =>
      obtain ⟨b, hb⟩ := Option.isSome_iff_exists.mp (h a (by simp))
      have ht := ih (fun x hx => h x (by simp [hx]))
      obtain ⟨bs, hbs⟩ := Option.isSome_iff_exists.mp ht
      simp [pyMapM, hb, hbs]

lemma pyListComp_eq_filter {α : Type} (p : α → Option Bool) (f : α → Bool) (l : List α)
    (h : ∀ a ∈ l, p a = some (f a)) : pyListComp p l = some (l.filter f) := by
  induction l with
  | nil => rfl
  | cons a t ih =>
      have ha := h a (by simp)
      have ht := ih (fun x hx => h x (by simp [hx]))
      by_cases hf : f a = true
      · simp [pyListComp, ha, ht, List.filter_cons, hf]
      · have hf' : f a = false := by simpa using hf
        simp [pyListComp, ha, ht, List.filter_cons, hf']

lemma snd_mem_of_mem_enumFrom {α : Type} {l : List α} {n : ℕ} {p : ℕ × α}
    (h : p ∈ l.enumFrom n) : p.2 ∈ l := by
  induction l generalizing n with
  | nil => simp [List.enumFrom] at h
  | cons a t ih =>
      simp only [List.enumFrom, List.mem_cons] at h
      rcases h with h | h
      · subst h
        simp
      · simp [ih h]

/-! ## Shape predicates for the report renderer -/

/-- A code_example value the renderer can process: falsy, or a dict whose
code entry is a string. -/
def codeExampleOk (ce : JVal) : Bool :=
  !pyTruthy ce ||
    (match ce with
     | .obj cd =>
         (match dictGetD cd "code" (.str []) with
          | .str _ => true
          | _ => false)
     | _ => false)

/-- A feedback item the renderer can process: a dict with an iterable
what_to_do and a processable code_example. -/
def itemOk : JVal → Bool
  | .obj d =>
      (pyIter (dictGetD d "what_to_do" (.arr []))).isSome
        && codeExampleOk (dictGetD d "code_example" (.obj []))
  | _ => false

/-- A quick-wins entry the renderer can process: a dict. -/
def quickWinOk : JVal → Bool
  | .obj _ => true
  | _ => false

/-- Tests that a value is a dict satisfying `f`. -/
def isObjWith (f : PyDict → Bool) : JVal → Bool
  | .obj w => f w
  | _ => false

/-- Tests that a value is a list satisfying `f`. -/
def isArrWith (f : List JVal → Bool) : JVal → Bool
  | .arr l => f l
  | _ => false

/-- A feedback result the renderer can process without raising: each
present field has the structural type the renderer iterates or reads. -/
def wellShaped (d : PyDict) : Bool :=
  isObjWith (fun _ => true) (dictGetD d "summary" (.obj []))
  && isArrWith (fun l => l.all quickWinOk) (dictGetD d "quick_wins" (.arr []))
  && isArrWith (fun l => l.all itemOk) (dictGetD d "feedback_items" (.arr []))
  && isObjWith (fun w =>
       (pyIter (dictGetD w "priority_fixes" (.arr []))).isSome
       && (pyIter (dictGetD w "color_adjustments" (.arr []))).isSome
       && (pyIter (dictGetD w "typography_changes" (.arr []))).isSome)
     (dictGetD d "wireframe_instructions" (.obj []))

lemma exists_obj_of_isObjWith {f : PyDict → Bool} {v : JVal}
    (h : isObjWith f v = true) : ∃ w, v = .obj w ∧ f w = true := by
  cases v <;> simp_all [isObjWith]

lemma exists_arr_of_isArrWith {f : List JVal → Bool} {v : JVal}
    (h : isArrWith f v = true) : ∃ l, v = .arr l ∧ f l = true := by
  cases v <;> simp_all [isArrWith]

/-! ## Totality lemmas for the report renderer -/

lemma summaryLines_isSome (sm : PyDict) : (summaryLines (.obj sm)).isSome = true := by
  simp [summaryLines, jvGet]

lemma codeExampleLines_isSome (ce : JVal) (h : codeExampleOk ce = true) :
    (codeExampleLines ce).isSome = true := by
  unfold codeExampleLines
  by_cases ht : pyTruthy ce = true
  · rw [if_pos ht]
    unfold codeExampleOk at h
    rw [ht] at h
    simp only [Bool.not_true, Bool.false_or] at h
    cases ce with
    | obj cd =>
        rcases hcv : dictGetD cd "code" (.str []) with c | q | b | _ | l | o
        · simp [jvGet, hcv, strOnly]
        · simp [hcv] at h
        · simp [hcv] at h
        · simp [hcv] at h
        · simp [hcv] at h
        · simp [hcv] at h
    | str s => simp at h
    | num q => simp at h
    | bool b => simp at h
    | null => simp at h
    | arr l => simp at h
  · rw [if_neg ht]
    rfl

lemma feedbackItemLines_isSome (it : JVal) (h : itemOk it = true) :
    (feedbackItemLines it).isSome = true := by
  cases it with
  | obj d =>
      simp only [itemOk, Bool.and_eq_true] at h
      obtain ⟨h1, h2⟩ := h
      obtain ⟨sv, hsv⟩ := Option.isSome_iff_exists.mp h1
      obtain ⟨cb, hcb⟩ := Option.isSome_iff_exists.mp (codeExampleLines_isSome _ h2)
      simp [feedbackItemLines, jvGet, hsv, hcb]
  | str s => simp [itemOk] at h
  | num q => simp [itemOk] at h
  | bool b => simp [itemOk] at h
  | null => simp [itemOk] at h
  | arr l => simp [itemOk] at h

lemma quickWinLines_isSome (iw : ℕ × JVal) (h : quickWinOk iw.2 = true) :
    (quickWinLines iw).isSome = true := by
  rcases iw with ⟨i, w⟩
  cases w with
  | obj d => simp [quickWinLines, jvGet]
  | str s => simp [quickWinOk] at h
  | num q => simp [quickWinOk] at h
  | bool b => simp [quickWinOk] at h
  | null => simp [quickWinOk] at h
  | arr l => simp [quickWinOk] at h

lemma quickWinsLines_isSome (qw : List JVal) (h : qw.all quickWinOk = true) :
    (quickWinsLines (.arr qw)).isSome = true := by
  unfold quickWinsLines
  by_cases ht : pyTruthy (.arr qw) = true
  · rw [if_pos ht]
    have hm : (pyMapM quickWinLines (qw.enumFrom 1)).isSome = true := by
      apply pyMapM_isSome
      intro a ha
      exact quickWinLines_isSome a
        (by
          have := snd_mem_of_mem_enumFrom ha
          exact List.all_eq_true.mp h _ this)
    obtain ⟨cs, hcs⟩ := Option.isSome_iff_exists.mp hm
    simp [pyIter, hcs]
  · rw [if_neg ht]
    rfl

lemma subListLines_isSome (hdr : String) (v : JVal) (h : (pyIter v).isSome = true) :
    (subListLines hdr v).isSome = true := by
  unfold subListLines
  by_cases ht : pyTruthy v = true
  · rw [if_pos ht]
    obtain ⟨el, hel⟩ := Option.isSome_iff_exists.mp h
    simp [hel]
  · rw [if_neg ht]
    rfl

lemma wireframeSectionLines_isSome (w : PyDict)
    (hpf : (pyIter (dictGetD w "priority_fixes" (.arr []))).isSome = true)
    (hca : (pyIter (dictGetD w "color_adjustments" (.arr []))).isSome = true)
    (htc : (pyIter (dictGetD w "typography_changes" (.arr []))).isSome = true) :
    (wireframeSectionLines (.obj w)).isSome = true := by
  unfold wireframeSectionLines
  by_cases ht : pyTruthy (.obj w) = true
  · rw [if_pos ht]
    obtain ⟨a1, ha1⟩ := Option.isSome_iff_exists.mp
      (subListLines_isSome "**Priority Visual Fixes:**" _ hpf)
    obtain ⟨a2, ha2⟩ := Option.isSome_iff_exists.mp
      (subListLines_isSome "**Color Adjustments:**" _ hca)
    obtain ⟨a3, ha3⟩ := Option.isSome_iff_exists.mp
      (subListLines_isSome "**Typography Changes:**" _ htc)
    simp [jvGet, ha1, ha2, ha3]
  · rw [if_neg ht]
    rfl

/-! ## Equational characterisation of the detailed-feedback section -/

/-- The rendering of one well-shaped feedback item (the value
`feedbackItemLines` returns for every item the renderer can process). -/
def feedbackItemLinesD (it : JVal) : List String := (feedbackItemLines it).getD []

lemma feedbackItemLines_eq (it : JVal) (h : itemOk it = true) :
    feedbackItemLines it = some (feedbackItemLinesD it) :=
  opt_eq_some_getD _ _ (feedbackItemLines_isSome it h)

lemma priorityCheck_of_ok (p : String) (it : JVal) (h : itemOk it = true) :
    priorityCheck p it = some (hasPriority it p) := by
  cases it with
  | obj d => rfl
  | str s => simp [itemOk] at h
  | num q => simp [itemOk] at h
  | bool b => simp [itemOk] at h
  | null => simp [itemOk] at h
  | arr l => simp [itemOk] at h

lemma bucketLines_eq (items : List JVal) (p : String)
    (h : ∀ it ∈ items, itemOk it = true) :
    bucketLines items p
      = some (if (items.filter (fun it => hasPriority it p)).isEmpty then []
              else ("### " ++ p.toUpper ++ " Priority ("
                    ++ toString (items.filter (fun it => hasPriority it p)).length
                    ++ " items)\n")
                   :: ((items.filter (fun it => hasPriority it p)).map
                        feedbackItemLinesD).flatten) := by
  have hcomp : pyListComp (priorityCheck p) items
      = some (items.filter (fun it => hasPriority it p)) :=
    pyListComp_eq_filter _ _ _ (fun a ha => priorityCheck_of_ok p a (h a ha))
  by_cases hemp : (items.filter (fun it => hasPriority it p)).isEmpty = true
  · simp [bucketLines, hcomp, hemp]
  · have hemp' : (items.filter (fun it => hasPriority it p)).isEmpty = false := by
      simpa using hemp
    have hm : pyMapM feedbackItemLines (items.filter (fun it => hasPriority it p))
        = some ((items.filter (fun it => hasPriority it p)).map feedbackItemLinesD) :=
      pyMapM_eq_map _ _ _ (fun a ha =>
        feedbackItemLines_eq a (h a ((List.filter_sublist items).subset ha)))
    simp [bucketLines, hcomp, hemp', hm]

lemma detailedFeedbackLines_eq (items : List JVal)
    (h : ∀ it ∈ items, itemOk it = true) :
    detailedFeedbackLines (.arr items)
      = some ("## 🔧 Detailed Feedback\n"
          :: (priorities.map (fun p =>
                if (items.filter (fun it => hasPriority it p)).isEmpty then []
                else ("### " ++ p.toUpper ++ " Priority ("
                      ++ toString (items.filter (fun it => hasPriority it p)).length
                      ++ " items)\n")
                     :: ((items.filter (fun it => hasPriority it p)).map
                          feedbackItemLinesD).flatten)).flatten) := by
  have hb : pyMapM (bucketLines items) priorities
      = some (priorities.map (fun p =>
          if (items.filter (fun it => hasPriority it p)).isEmpty then []
          else ("### " ++ p.toUpper ++ " Priority ("
                ++ toString (items.filter (fun it => hasPriority it p)).length
                ++ " items)\n")
               :: ((items.filter (fun it => hasPriority it p)).map
                    feedbackItemLinesD).flatten)) :=
    pyMapM_eq_map _ _ _ (fun p _ => bucketLines_eq items p h)
  simp [detailedFeedbackLines, pyIter, hb]

lemma subListLines_arr (hdr : String) (l : List JVal) :
    subListLines hdr (.arr l)
      = some (if l.isEmpty then []
              else hdr :: (l.map (fun x => "- " ++ pyStr x) ++ [""])) := by
  by_cases hl : l.isEmpty = true
  · simp [subListLines, pyTruthy, hl]
  · have hl' : l.isEmpty = false := by simpa using hl
    simp [subListLines, pyTruthy, hl', pyIter]

lemma wireframeSectionLines_eq (wi : PyDict) (pfl cal tcl : List JVal)
    (hwi : wi.isEmpty = false)
    (hpf : dictGetD wi "priority_fixes" (.arr []) = .arr pfl)
    (hca : dictGetD wi "color_adjustments" (.arr []) = .arr cal)
    (htc : dictGetD wi "typography_changes" (.arr []) = .arr tcl) :
    wireframeSectionLines (.obj wi)
      = some ("## 🎨 Visual Design Changes\n"
          :: ((if pyTruthy (dictGetD wi "overall_changes" (.str [])) then
                 ["**Overall:** " ++ pyStr (dictGetD wi "overall_changes" (.str [])) ++ "\n"]
               else [])
              ++ (if pfl.isEmpty then []
                  else "**Priority Visual Fixes:**"
                       :: (pfl.map (fun x => "- " ++ pyStr x) ++ [""]))
              ++ (if cal.isEmpty then []
                  else "**Color Adjustments:**"
                       :: (cal.map (fun x => "- " ++ pyStr x) ++ [""]))
              ++ (if tcl.isEmpty then []
                  else "**Typography Changes:**"
                       :: (tcl.map (fun x => "- " ++ pyStr x) ++ [""])))) := by
  have ht : pyTruthy (.obj wi) = true := by simp [pyTruthy, hwi]
  unfold wireframeSectionLines
  rw [if_pos ht]
  simp [jvGet, hpf, hca, htc, subListLines_arr]

/-! ## Claim C6 -/

/-- C6 counterexample: a non-empty layout_modifications sub-list of
wireframe_instructions is omitted from the rendered visual-design-changes
section (the renderer never reads it), so the section is not built from all
the wireframe_instructions subsections with only empty sub-lists omitted. -/
theorem layout_modifications_ignored_c6_counterexample :
    wireframeSectionLines (.obj [("priority_fixes", .arr [.str "f".toList]),
        ("layout_modifications", .arr [.str "MOVE".toList])])
      = wireframeSectionLines (.obj [("priority_fixes", .arr [.str "f".toList])])
    ∧ ¬ ("- MOVE" ∈ (wireframeSectionLines (.obj [("priority_fixes", .arr [.str "f".toList]),
        ("layout_modifications", .arr [.str "MOVE".toList])])).getD []) := by
  refine ⟨rfl, ?_⟩
  decide

/-- C6 (amended): detailed feedback is grouped into priority buckets in the
fixed order critical, high, medium, low, empty buckets omitted, and within
a bucket items keep their relative feedback_items order (the bucket is a
filter, a sublist of the input); the visual-design-changes section is built
from the overall_changes, priority_fixes, color_adjustments and
typography_changes subsections of wireframe_instructions — each omitted
when empty — while layout_modifications is never rendered. -/
theorem developer_report_grouping_c6 (items : List JVal) (wi : PyDict)
    (pfl cal tcl : List JVal)
    (h : ∀ it ∈ items, itemOk it = true)
    (hwi : wi.isEmpty = false)
    (hpf : dictGetD wi "priority_fixes" (.arr []) = .arr pfl)
    (hca : dictGetD wi "color_adjustments" (.arr []) = .arr cal)
    (htc : dictGetD wi "typography_changes" (.arr []) = .arr tcl) :
    detailedFeedbackLines (.arr items)
      = some ("## 🔧 Detailed Feedback\n"
          :: (priorities.map (fun p =>
                if (items.filter (fun it => hasPriority it p)).isEmpty then []
                else ("### " ++ p.toUpper ++ " Priority ("
                      ++ toString (items.filter (fun it => hasPriority it p)).length
                      ++ " items)\n")
                     :: ((items.filter (fun it => hasPriority it p)).map
                          feedbackItemLinesD).flatten)).flatten)
    ∧ (∀ p : String, (items.filter (fun it => hasPriority it p)).Sublist items)
    ∧ wireframeSectionLines (.obj wi)
      = some ("## 🎨 Visual Design Changes\n"
          :: ((if pyTruthy (dictGetD wi "overall_changes" (.str [])) then
                 ["**Overall:** " ++ pyStr (dictGetD wi "overall_changes" (.str [])) ++ "\n"]
               else [])
              ++ (if pfl.isEmpty then []
                  else "**Priority Visual Fixes:**"
                       :: (pfl.map (fun x => "- " ++ pyStr x) ++ [""]))
              ++ (if cal.isEmpty then []
                  else "**Color Adjustments:**"
                       :: (cal.map (fun x => "- " ++ pyStr x) ++ [""]))
              ++ (if tcl.isEmpty then []
                  else "**Typography Changes:**"
                       :: (tcl.map (fun x => "- " ++ pyStr x) ++ [""])))) :=
  ⟨detailedFeedbackLines_eq items h,
   fun _ => List.filter_sublist items,
   wireframeSectionLines_eq wi pfl cal tcl hwi hpf hca htc⟩

theorem developer_report_grouping_c6_witness :
    ((∀ it ∈ [JVal.obj [("priority", JVal.str "high".toList)]], itemOk it = true)
     ∧ ([("priority_fixes", JVal.arr [JVal.str "f".toList])] : PyDict).isEmpty = false
     ∧ dictGetD [("priority_fixes", JVal.arr [JVal.str "f".toList])] "priority_fixes"
         (.arr []) = .arr [JVal.str "f".toList]
     ∧ dictGetD [("priority_fixes", JVal.arr [JVal.str "f".toList])] "color_adjustments"
         (.arr []) = .arr []
     ∧ dictGetD [("priority_fixes", JVal.arr [JVal.str "f".toList])] "typography_changes"
         (.arr []) = .arr [])
    ∧ (detailedFeedbackLines (.arr [JVal.obj [("priority", JVal.str "high".toList)]])).isSome
        = true
    ∧ ([JVal.obj [("priority", JVal.str "high".toList)]].filter
        (fun it => hasPriority it "high")).Sublist
        [JVal.obj [("priority", JVal.str "high".toList)]]
    ∧ (wireframeSectionLines
        (.obj [("priority_fixes", JVal.arr [JVal.str "f".toList])])).isSome = true := by
  have T := developer_report_grouping_c6
    [JVal.obj [("priority", JVal.str "high".toList)]]
    [("priority_fixes", JVal.arr [JVal.str "f".toList])]
    [JVal.str "f".toList] [] []
    (by decide) rfl rfl rfl rfl
  refine ⟨⟨by decide, rfl, rfl, rfl, rfl⟩, ?_, T.2.1 "high", ?_⟩
  · rw [T.1]
    rfl
  · rw [T.2.2]
    rfl

/-! ## Claim C7 -/

/-- C7 counterexample: the report renderer is not total on every input
mapping — a numeric feedback_items value makes the bucket comprehension
iterate a non-iterable and raise TypeError. -/
theorem report_not_total_c7_counterexample :
    generate_developer_report [("feedback_items", JVal.num 5)] = none := rfl

/-- C7 (amended): the report renderer is total on every mapping whose
present fields have the structural types it reads (summary a dict,
quick_wins a list of dicts, feedback_items a list of processable items,
wireframe_instructions a dict with iterable sub-lists) — in particular
missing fields render placeholders — and on the empty FeedbackResult {} it
produces the document with zero-count summary fields and a
detailed-feedback section consisting of the bare heading; it raises on
ill-typed fields such as a numeric feedback_items. -/
theorem developer_report_total_c7 :
    (∀ d : PyDict, wellShaped d = true → (generate_developer_report d).isSome = true)
    ∧ developer_report_lines []
      = some ["# 🎯 UX Feedback Report for Developers\n",
              "## 📊 Summary\n",
              "- **Total Issues Found:** 0",
              "- **Critical:** 0",
              "- **High Priority:** 0",
              "- **Medium Priority:** 0",
              "- **Low Priority:** 0",
              "- **Estimated Time to Fix:** Unknown\n",
              "## 🔧 Detailed Feedback\n"] := by
  constructor
  · intro d hd
    simp only [wellShaped, Bool.and_eq_true] at hd
    obtain ⟨⟨⟨hsm, hqw⟩, hfi⟩, hwf⟩ := hd
    obtain ⟨sm, hsmv, -⟩ := exists_obj_of_isObjWith hsm
    obtain ⟨xqw, hqwv, hqw'⟩ := exists_arr_of_isArrWith hqw
    obtain ⟨xfi, hfiv, hfi'⟩ := exists_arr_of_isArrWith hfi
    obtain ⟨xwf, hwfv, hwf'⟩ := exists_obj_of_isObjWith hwf
    simp only [Bool.and_eq_true] at hwf'
    obtain ⟨⟨hw1, hw2⟩, hw3⟩ := hwf'
    obtain ⟨s1, hs1⟩ := Option.isSome_iff_exists.mp (summaryLines_isSome sm)
    obtain ⟨s2, hs2⟩ := Option.isSome_iff_exists.mp (quickWinsLines_isSome xqw hqw')
    have hd3 := detailedFeedbackLines_eq xfi (List.all_eq_true.mp hfi')
    obtain ⟨s4, hs4⟩ := Option.isSome_iff_exists.mp
      (wireframeSectionLines_isSome xwf hw1 hw2 hw3)
    simp [generate_developer_report, developer_report_lines, hsmv, hqwv, hfiv, hwfv,
      hs1, hs2, hd3, hs4]
  · rfl

theorem developer_report_total_c7_witness :
    wellShaped [] = true ∧ (generate_developer_report []).isSome = true :=
  ⟨by decide, developer_report_total_c7.1 [] (by decide)⟩
